import Mathlib

/-
Verification of the Eureka Pitch Scorer (src/app.py): a shallow embedding of
the response-normalization helpers, the model-fallback loop, the prompt
builder, the text extractor and the UI handler logic, together with proofs of
the frozen claims about them.  Strings are modelled as `List Char`; the
`json.loads` collaborator is modelled by an executable recursive-descent JSON
parser (integer numerals); the remote generation API is modelled by an
endpoint function from a model identifier to `Except errorDetail responseText`.
The regex-substitution scans are written with a fuel parameter so that they
are structurally recursive and kernel-evaluable; one fuel unit is spent per
scan step and every step consumes at least one input character, so fuel equal
to the input length always suffices (at fuel 0 the remaining input, always
empty by then, is returned unchanged).
-/

set_option maxRecDepth 100000

/-- The backtick character, written via its code point. -/
def tick : Char := Char.ofNat 96

/-- Characters stripped by Python `str.strip()`. -/
def isPySpace (c : Char) : Bool :=
  c = ' ' || c = '\t' || c = '\n' || c = '\r' || c = Char.ofNat 11 || c = Char.ofNat 12

/-- Remove leading Python whitespace. -/
def stripLeft (l : List Char) : List Char := l.dropWhile isPySpace

/-- Remove trailing Python whitespace. -/
def stripRight : List Char → List Char
  | [] => []
  | c :: t =>
    let r := stripRight t
    if r.isEmpty && isPySpace c then [] else c :: r

/-- Python `str.strip()`: trailing then leading whitespace removal. -/
def pyStrip (l : List Char) : List Char := stripLeft (stripRight l)

/-- Does the text begin with the fence header three-backticks-`json`? -/
def headerJson (l : List Char) : Bool := l.take 7 == "```json".data

/-- Fueled scan of `re.sub(r'```json\n?', '', text)`: delete every
left-to-right non-overlapping occurrence of three backticks followed by
`json` and an optional newline. -/
def rjfAux : Nat → List Char → List Char
  | 0, l => l
  | fuel + 1, l =>
    match l with
    | [] => []
    | c :: t =>
      if headerJson l then
        if (l.drop 7).take 1 == "\n".data then rjfAux fuel (l.drop 8)
        else rjfAux fuel (l.drop 7)
      else c :: rjfAux fuel t

/-- First pass of `clean_json_response`. -/
def removeJsonFence (l : List Char) : List Char := rjfAux l.length l

/-- Fueled scan of `re.sub(r'```', '', text)`: delete every left-to-right
non-overlapping occurrence of three consecutive backticks. -/
def rtAux : Nat → List Char → List Char
  | 0, l => l
  | fuel + 1, l =>
    match l with
    | [] => []
    | c :: t =>
      if l.take 3 == "```".data then rtAux fuel (l.drop 3)
      else c :: rtAux fuel t

/-- Second pass of `clean_json_response`. -/
def removeTicks (l : List Char) : List Char := rtAux l.length l

/-- `clean_json_response` from src/app.py: strip the `json`-tagged fence
pass, then the bare-fence pass, then surrounding whitespace. -/
def clean_json_response (response_text : List Char) : List Char :=
  pyStrip (removeTicks (removeJsonFence response_text))

/-- Whether the text contains three consecutive backticks anywhere. -/
def hasTriple : List Char → Bool
  | [] => false
  | c :: t => (c :: t).take 3 == "```".data || hasTriple t

-- Smoke checks of the embedding on concrete data.
example : clean_json_response ("```json\n[1]\n```".data) = "[1]".data := by decide
example : stripRight " a ".data = " a".data := by decide
example : hasTriple "ab```c".data = true := by decide
example : hasTriple "ab``c`".data = false := by decide
example : clean_json_response "x``` ```json y".data = "x  y".data := by decide

/-! ### Scan-step lemmas -/

theorem headerJson_cons_ne (c : Char) (t : List Char) (h : c ≠ tick) :
    headerJson (c :: t) = false := by
  simp only [headerJson, List.take, beq_eq_false_iff_ne, ne_eq, List.cons.injEq, not_and]
  intro hc
  exact absurd hc (by simpa [tick] using h)

theorem rjfAux_step_emit (f : Nat) (c : Char) (t : List Char) (h : headerJson (c :: t) = false) :
    rjfAux (f + 1) (c :: t) = c :: rjfAux f t := by
  rw [rjfAux]
  simp [h]

theorem rtAux_step_emit (f : Nat) (c : Char) (t : List Char)
    (h : ((c :: t).take 3 == "```".data) = false) :
    rtAux (f + 1) (c :: t) = c :: rtAux f t := by
  rw [rtAux]
  rw [if_neg (by rw [h]; exact Bool.false_ne_true)]

theorem rjfAux_append (s tail : List Char) (hs : tick ∉ s) (f : Nat) :
    rjfAux (s.length + f) (s ++ tail) = s ++ rjfAux f tail := by
  induction s with
  | nil => simp
  | cons c s' ih =>
    have hc : c ≠ tick := fun hc => hs (hc ▸ List.mem_cons_self c s')
    have hs' : tick ∉ s' := fun hm => hs (List.mem_cons_of_mem c hm)
    have : s'.length + 1 + f = (s'.length + f) + 1 := by omega
    simp only [List.cons_append, List.length_cons, this]
    rw [rjfAux_step_emit _ _ _ (headerJson_cons_ne c _ hc), ih hs']

theorem take3_ne_of_cons_ne (c : Char) (t : List Char) (h : c ≠ tick) :
    ((c :: t).take 3 == "```".data) = false := by
  simp only [List.take, beq_eq_false_iff_ne, ne_eq, List.cons.injEq, not_and]
  intro hc
  exact absurd hc (by simpa [tick] using h)

theorem rtAux_append (s tail : List Char) (hs : tick ∉ s) (f : Nat) :
    rtAux (s.length + f) (s ++ tail) = s ++ rtAux f tail := by
  induction s with
  | nil => simp
  | cons c s' ih =>
    have hc : c ≠ tick := fun hc => hs (hc ▸ List.mem_cons_self c s')
    have hs' : tick ∉ s' := fun hm => hs (List.mem_cons_of_mem c hm)
    have : s'.length + 1 + f = (s'.length + f) + 1 := by omega
    simp only [List.cons_append, List.length_cons, this]
    rw [rtAux_step_emit _ _ _ (take3_ne_of_cons_ne c _ hc), ih hs']

theorem headerJson_false_of_take3 (l : List Char) (h : (l.take 3 == "```".data) = false) :
    headerJson l = false := by
  simp only [headerJson, beq_eq_false_iff_ne, ne_eq] at h ⊢
  intro h7
  apply h
  have h33 : l.take 3 = (l.take 7).take 3 := by
    rw [List.take_take]
    norm_num
  rw [h33, h7]
  rfl

theorem rjfAux_id_of_noTriple (l : List Char) (h : hasTriple l = false) (f : Nat) :
    rjfAux f l = l := by
  induction l generalizing f with
  | nil => cases f <;> rfl
  | cons c t ih =>
    cases f with
    | zero => rfl
    | succ f =>
      rw [hasTriple, Bool.or_eq_false_iff] at h
      rw [rjfAux_step_emit _ _ _ (headerJson_false_of_take3 _ h.1), ih h.2]

theorem rtAux_id_of_noTriple (l : List Char) (h : hasTriple l = false) (f : Nat) :
    rtAux f l = l := by
  induction l generalizing f with
  | nil => cases f <;> rfl
  | cons c t ih =>
    cases f with
    | zero => rfl
    | succ f =>
      rw [hasTriple, Bool.or_eq_false_iff] at h
      rw [rtAux_step_emit _ _ _ h.1, ih h.2]

theorem noTriple_of_no_tick (l : List Char) (h : tick ∉ l) : hasTriple l = false := by
  induction l with
  | nil => rfl
  | cons c t ih =>
    have hc : c ≠ tick := fun hc => h (hc ▸ List.mem_cons_self c t)
    have ht : tick ∉ t := fun hm => h (List.mem_cons_of_mem c hm)
    rw [hasTriple, Bool.or_eq_false_iff]
    exact ⟨take3_ne_of_cons_ne c t hc, ih ht⟩

/-! ### Python strip lemmas -/

theorem stripRight_append_ws (l : List Char) (c : Char) (hc : isPySpace c = true) :
    stripRight (l ++ [c]) = stripRight l := by
  induction l with
  | nil => simp [stripRight, hc]
  | cons a l ih => simp [stripRight, ih]

theorem stripRight_cons (c : Char) (t : List Char) :
    stripRight (c :: t) =
      if ((stripRight t).isEmpty && isPySpace c) = true then [] else c :: stripRight t := rfl

theorem pyStrip_cons_ws (l : List Char) (c : Char) (hc : isPySpace c = true) :
    pyStrip (c :: l) = pyStrip l := by
  unfold pyStrip
  rw [stripRight_cons]
  by_cases he : (stripRight l).isEmpty = true
  · rw [if_pos (by simp [he, hc])]
    rw [List.isEmpty_iff] at he
    rw [he]
  · rw [if_neg (by simp [he])]
    unfold stripLeft
    rw [List.dropWhile_cons_of_pos hc]

theorem pyStrip_append_ws (l : List Char) (c : Char) (hc : isPySpace c = true) :
    pyStrip (l ++ [c]) = pyStrip l := by
  unfold pyStrip
  rw [stripRight_append_ws l c hc]

theorem stripRight_idem (l : List Char) : stripRight (stripRight l) = stripRight l := by
  induction l with
  | nil => rfl
  | cons c t ih =>
    rw [stripRight_cons]
    by_cases hcond : ((stripRight t).isEmpty && isPySpace c) = true
    · rw [if_pos hcond]
      rfl
    · rw [if_neg hcond, stripRight_cons, ih, if_neg hcond]

theorem dropWhile_pyspace_idem (l : List Char) :
    (l.dropWhile isPySpace).dropWhile isPySpace = l.dropWhile isPySpace := by
  induction l with
  | nil => rfl
  | cons c t ih =>
    by_cases hc : isPySpace c = true
    · rw [List.dropWhile_cons_of_pos hc, ih]
    · rw [List.dropWhile_cons_of_neg (by simp_all)]
      rw [List.dropWhile_cons_of_neg (by simp_all)]

theorem stripRight_dropWhile_of_fixed (l : List Char) (h : stripRight l = l) :
    stripRight (l.dropWhile isPySpace) = l.dropWhile isPySpace := by
  induction l with
  | nil => rfl
  | cons c t ih =>
    rw [stripRight_cons] at h
    by_cases hcond : ((stripRight t).isEmpty && isPySpace c) = true
    · rw [if_pos hcond] at h
      exact absurd h.symm (List.cons_ne_nil c t)
    · rw [if_neg hcond] at h
      have ht : stripRight t = t := by injection h
      by_cases hc : isPySpace c = true
      · rw [List.dropWhile_cons_of_pos hc]
        exact ih ht
      · rw [List.dropWhile_cons_of_neg (by simp_all)]
        rw [stripRight_cons, if_neg hcond, ht]

theorem pyStrip_idem (l : List Char) : pyStrip (pyStrip l) = pyStrip l := by
  unfold pyStrip stripLeft
  rw [stripRight_dropWhile_of_fixed (stripRight l) (stripRight_idem l),
    dropWhile_pyspace_idem]

/-! ### Fence-wrapping lemmas -/

/-- A response wrapped in a `json`-tagged markdown code fence. -/
def wrapFenceJson (s : List Char) : List Char := "```json\n".data ++ s ++ "\n```".data

/-- A response wrapped in an untagged markdown code fence. -/
def wrapFencePlain (s : List Char) : List Char := "```\n".data ++ s ++ "\n```".data

theorem rjfAux_step_json (f : Nat) (l : List Char) :
    rjfAux (f + 1) ("```json\n".data ++ l) = rjfAux f l := rfl

theorem rtAux_step_ticks (f : Nat) (l : List Char) :
    rtAux (f + 1) ("```".data ++ l) = rtAux f l := rfl

theorem headerJson_2nd (c0 c1 : Char) (t : List Char) (h : c1 ≠ tick) :
    headerJson (c0 :: c1 :: t) = false := by
  simp only [headerJson, beq_eq_false_iff_ne, ne_eq]
  intro h7
  rw [show (c0 :: c1 :: t).take 7 = c0 :: c1 :: t.take 5 from rfl] at h7
  injection h7 with h0 h7
  injection h7 with h1 _
  exact h (h1.trans (by rfl))

theorem headerJson_3rd (c0 c1 c2 : Char) (t : List Char) (h : c2 ≠ tick) :
    headerJson (c0 :: c1 :: c2 :: t) = false := by
  simp only [headerJson, beq_eq_false_iff_ne, ne_eq]
  intro h7
  rw [show (c0 :: c1 :: c2 :: t).take 7 = c0 :: c1 :: c2 :: t.take 4 from rfl] at h7
  injection h7 with h0 h7
  injection h7 with h1 h7
  injection h7 with h2 _
  exact h (h2.trans (by rfl))

theorem headerJson_4th (c0 c1 c2 c3 : Char) (t : List Char) (h : c3 ≠ 'j') :
    headerJson (c0 :: c1 :: c2 :: c3 :: t) = false := by
  simp only [headerJson, beq_eq_false_iff_ne, ne_eq]
  intro h7
  rw [show (c0 :: c1 :: c2 :: c3 :: t).take 7 = c0 :: c1 :: c2 :: c3 :: t.take 3 from rfl] at h7
  injection h7 with h0 h7
  injection h7 with h1 h7
  injection h7 with h2 h7
  injection h7 with h3 _
  exact h h3

theorem removeJsonFence_wrap_json (s : List Char) (hs : tick ∉ s) :
    removeJsonFence (wrapFenceJson s) = s ++ "\n```".data := by
  unfold removeJsonFence wrapFenceJson
  rw [List.append_assoc]
  have hlen : ("```json\n".data ++ (s ++ "\n```".data)).length = (s.length + 11) + 1 := by
    simp only [List.length_append]
    rw [show ("```json\n".data).length = 8 from rfl, show ("\n```".data).length = 4 from rfl]
    omega
  rw [hlen, rjfAux_step_json, rjfAux_append s _ hs 11,
    show rjfAux 11 ("\n```".data) = "\n```".data from by decide]

theorem removeTicks_append_nl (s : List Char) (hs : tick ∉ s) :
    removeTicks (s ++ "\n```".data) = s ++ "\n".data := by
  unfold removeTicks
  have hlen : (s ++ "\n```".data).length = s.length + 4 := by
    simp only [List.length_append]
    rw [show ("\n```".data).length = 4 from rfl]
  rw [hlen, rtAux_append s _ hs 4,
    show rtAux 4 ("\n```".data) = "\n".data from by decide]

theorem clean_of_noTriple (l : List Char) (h : hasTriple l = false) :
    clean_json_response l = pyStrip l := by
  unfold clean_json_response removeJsonFence removeTicks
  rw [rjfAux_id_of_noTriple l h, rtAux_id_of_noTriple l h]

theorem clean_of_no_tick (s : List Char) (hs : tick ∉ s) :
    clean_json_response s = pyStrip s :=
  clean_of_noTriple s (noTriple_of_no_tick s hs)

theorem clean_wrap_json (s : List Char) (hs : tick ∉ s) :
    clean_json_response (wrapFenceJson s) = pyStrip s := by
  unfold clean_json_response
  rw [removeJsonFence_wrap_json s hs, removeTicks_append_nl s hs,
    show ("\n".data) = ['\n'] from rfl, pyStrip_append_ws s '\n' (by decide)]

theorem removeJsonFence_wrap_plain (s : List Char) (hs : tick ∉ s) :
    removeJsonFence (wrapFencePlain s) = wrapFencePlain s := by
  have hcons : wrapFencePlain s = tick :: tick :: tick :: '\n' :: (s ++ "\n```".data) := by
    rw [wrapFencePlain, List.append_assoc]
    rfl
  unfold removeJsonFence
  rw [hcons]
  have hlen : (tick :: tick :: tick :: '\n' :: (s ++ "\n```".data)).length = (s.length + 7) + 1 := by
    simp only [List.length_cons, List.length_append, List.length_nil]
  rw [hlen]
  rw [rjfAux_step_emit _ _ _ (headerJson_4th _ _ _ '\n' _ (by decide))]
  rw [show s.length + 7 = (s.length + 6) + 1 from rfl]
  rw [rjfAux_step_emit _ _ _ (headerJson_3rd _ _ '\n' _ (by decide))]
  rw [show s.length + 6 = (s.length + 5) + 1 from rfl]
  rw [rjfAux_step_emit _ _ _ (headerJson_2nd _ '\n' _ (by decide))]
  rw [show s.length + 5 = (s.length + 4) + 1 from rfl]
  rw [rjfAux_step_emit _ _ _ (headerJson_cons_ne '\n' _ (by decide))]
  rw [rjfAux_append s _ hs 4,
    show rjfAux 4 ("\n```".data) = "\n```".data from by decide]

theorem removeTicks_wrap_plain (s : List Char) (hs : tick ∉ s) :
    removeTicks (wrapFencePlain s) = '\n' :: (s ++ "\n".data) := by
  have hcons : wrapFencePlain s = "```".data ++ ('\n' :: (s ++ "\n```".data)) := by
    rw [wrapFencePlain, List.append_assoc]
    rfl
  unfold removeTicks
  rw [hcons]
  have hlen : ("```".data ++ ('\n' :: (s ++ "\n```".data))).length = (s.length + 7) + 1 := by
    simp only [List.length_append, List.length_cons, List.length_nil]
    omega
  rw [hlen, rtAux_step_ticks]
  rw [show s.length + 7 = (s.length + 6) + 1 from rfl]
  rw [rtAux_step_emit _ _ _ (take3_ne_of_cons_ne '\n' _ (by decide))]
  rw [rtAux_append s _ hs 6,
    show rtAux 6 ("\n```".data) = "\n".data from by decide]

theorem clean_wrap_plain (s : List Char) (hs : tick ∉ s) :
    clean_json_response (wrapFencePlain s) = pyStrip s := by
  unfold clean_json_response
  rw [removeJsonFence_wrap_plain s hs, removeTicks_wrap_plain s hs,
    pyStrip_cons_ws _ '\n' (by decide),
    show ("\n".data) = ['\n'] from rfl, pyStrip_append_ws s '\n' (by decide)]

/-! ### JSON model of the `json.loads` collaborator

An executable recursive-descent parser for JSON values: objects, arrays,
strings with the standard escapes, integer numerals, and the three literal
words.  (Fractional and exponent numerals are not modelled; no claim
exercises them.)  A fuel parameter makes the mutual recursion structural;
two fuel units per input character are ample, since every two nested calls
consume at least one character. -/

/-- Left-brace and right-brace characters, via their code points. -/
def lbrace : Char := Char.ofNat 123

def rbrace : Char := Char.ofNat 125

/-- Parsed JSON value. -/
inductive Json where
  | null : Json
  | bool (b : Bool) : Json
  | num (n : Int) : Json
  | str (s : List Char) : Json
  | arr (elems : List Json) : Json
  | obj (members : List (List Char × Json)) : Json

/-- JSON insignificant whitespace. -/
def isJsonWs (c : Char) : Bool := c = ' ' || c = '\t' || c = '\n' || c = '\r'

def skipWs (l : List Char) : List Char := l.dropWhile isJsonWs

def hexVal (c : Char) : Option Nat :=
  if '0' ≤ c ∧ c ≤ '9' then some (c.toNat - 48)
  else if 'a' ≤ c ∧ c ≤ 'f' then some (c.toNat - 87)
  else if 'A' ≤ c ∧ c ≤ 'F' then some (c.toNat - 55)
  else none

/-- Single-character string escapes. -/
def escChar (e : Char) : Option Char :=
  if e = '"' then some '"'
  else if e = '\\' then some '\\'
  else if e = '/' then some '/'
  else if e = 'n' then some '\n'
  else if e = 't' then some '\t'
  else if e = 'r' then some '\r'
  else if e = 'b' then some (Char.ofNat 8)
  else if e = 'f' then some (Char.ofNat 12)
  else none

/-- Parse the remainder of a JSON string after its opening quote; return
the decoded characters and the input after the closing quote. -/
def parseStringRest : List Char → Option (List Char × List Char)
  | [] => none
  | '"' :: t => some ([], t)
  | '\\' :: 'u' :: h1 :: h2 :: h3 :: h4 :: t =>
    match hexVal h1, hexVal h2, hexVal h3, hexVal h4 with
    | some a, some b, some c, some d =>
      (match parseStringRest t with
       | some (s, r) => some (Char.ofNat (((a * 16 + b) * 16 + c) * 16 + d) :: s, r)
       | none => none)
    | _, _, _, _ => none
  | '\\' :: e :: t =>
    match escChar e with
    | some c =>
      (match parseStringRest t with
       | some (s, r) => some (c :: s, r)
       | none => none)
    | none => none
  | c :: t =>
    if c.toNat < 32 then none
    else
      match parseStringRest t with
      | some (s, r) => some (c :: s, r)
      | none => none

/-- Accumulate decimal digits. -/
def digitsAux : List Char → Nat → Nat × List Char
  | [], acc => (acc, [])
  | c :: t, acc => if c.isDigit then digitsAux t (acc * 10 + (c.toNat - 48)) else (acc, c :: t)

/-- Parse an integer numeral with optional leading minus. -/
def parseNumber : List Char → Option (Int × List Char)
  | '-' :: c :: t =>
    if c.isDigit then
      match digitsAux (c :: t) 0 with
      | (n, r) => some (-(n : Int), r)
    else none
  | c :: t =>
    if c.isDigit then
      match digitsAux (c :: t) 0 with
      | (n, r) => some ((n : Int), r)
    else none
  | [] => none

mutual

def parseValue : Nat → List Char → Option (Json × List Char)
  | 0, _ => none
  | fuel + 1, l =>
    match skipWs l with
    | [] => none
    | c :: t =>
      if c = lbrace then
        match skipWs t with
        | d :: r =>
          if d = rbrace then some (.obj [], r)
          else
            (match parseMembers fuel (d :: r) with
             | some (ms, r2) => some (.obj ms, r2)
             | none => none)
        | [] => none
      else if c = '[' then
        match skipWs t with
        | d :: r =>
          if d = ']' then some (.arr [], r)
          else
            (match parseElems fuel (d :: r) with
             | some (es, r2) => some (.arr es, r2)
             | none => none)
        | [] => none
      else if c = '"' then
        match parseStringRest t with
        | some (s, r) => some (.str s, r)
        | none => none
      else if c = 't' then
        match t with
        | 'r' :: 'u' :: 'e' :: r => some (.bool true, r)
        | _ => none
      else if c = 'f' then
        match t with
        | 'a' :: 'l' :: 's' :: 'e' :: r => some (.bool false, r)
        | _ => none
      else if c = 'n' then
        match t with
        | 'u' :: 'l' :: 'l' :: r => some (.null, r)
        | _ => none
      else
        match parseNumber (c :: t) with
        | some (n, r) => some (.num n, r)
        | none => none

def parseElems : Nat → List Char → Option (List Json × List Char)
  | 0, _ => none
  | fuel + 1, l =>
    match parseValue fuel l with
    | some (v, r) =>
      (match skipWs r with
       | ',' :: r2 =>
         (match parseElems fuel r2 with
          | some (es, r3) => some (v :: es, r3)
          | none => none)
       | d :: r2 => if d = ']' then some ([v], r2) else none
       | [] => none)
    | none => none

def parseMembers : Nat → List Char → Option (List (List Char × Json) × List Char)
  | 0, _ => none
  | fuel + 1, l =>
    match skipWs l with
    | '"' :: t =>
      (match parseStringRest t with
       | some (key, r1) =>
         (match skipWs r1 with
          | ':' :: r2 =>
            (match parseValue fuel r2 with
             | some (v, r3) =>
               (match skipWs r3 with
                | ',' :: r4 =>
                  (match parseMembers fuel r4 with
                   | some (ms, r5) => some ((key, v) :: ms, r5)
                   | none => none)
                | d :: r4 => if d = rbrace then some ([(key, v)], r4) else none
                | [] => none)
             | none => none)
          | _ => none)
       | none => none)
    | _ => none

end

/-- Model of `json.loads`: parse one value, demand only whitespace after it. -/
def json_loads (l : List Char) : Option Json :=
  match parseValue (2 * l.length + 2) l with
  | some (v, rest) => if (skipWs rest).isEmpty then some v else none
  | none => none

-- Smoke checks of the JSON parser.
example : json_loads "[1, -2, []]".data = some (.arr [.num 1, .num (-2), .arr []]) := rfl
example : json_loads " \x7b\"a\": true, \"b\": \"x\\n\"\x7d ".data
    = some (.obj [("a".data, .bool true), ("b".data, .str ['x', '\n'])]) := rfl
example : json_loads "nul".data = none := rfl
example : json_loads "[1] x".data = none := rfl

/-- The normalization pipeline applied to a raw model response in the Run
Evaluation handler: `json.loads(clean_json_response(raw_result))`. -/
def normalize_response (raw : List Char) : Option Json := json_loads (clean_json_response raw)

theorem stripRight_sublist (l : List Char) : List.Sublist (stripRight l) l := by
  induction l with
  | nil => exact List.Sublist.refl []
  | cons c t ih =>
    rw [stripRight_cons]
    by_cases hcond : ((stripRight t).isEmpty && isPySpace c) = true
    · rw [if_pos hcond]
      exact List.nil_sublist _
    · rw [if_neg hcond]
      exact List.Sublist.cons₂ c ih

theorem no_tick_pyStrip (s : List Char) (hs : tick ∉ s) : tick ∉ pyStrip s := by
  intro hm
  apply hs
  have h1 : List.Sublist (pyStrip s) (stripRight s) := List.dropWhile_sublist _
  have h2 : List.Sublist (stripRight s) s := stripRight_sublist s
  exact (h1.trans h2).subset hm

/-- The ScoreReport-shaped JSON payload of the spec's scenario. -/
def scenario_json : String :=
  "\x7b\"reviews\":[\x7b\"question\":\"Q1\",\"score\":1,\"reasoning\":\"none\"\x7d],\"total_score\":1,\"hard_truth\":\"Too vague.\"\x7d"

/-- The raw model response of the spec's scenario: the payload wrapped in a
`json`-tagged markdown fence. -/
def scenario_raw : String := "```json\n" ++ scenario_json ++ "\n```"

/-- The structured value the scenario's response must normalize to. -/
def scenario_report : Json :=
  .obj [("reviews".data,
      .arr [.obj [("question".data, .str "Q1".data), ("score".data, .num 1),
        ("reasoning".data, .str "none".data)]]),
    ("total_score".data, .num 1), ("hard_truth".data, .str "Too vague.".data)]

-- Scenario smoke check.
example : normalize_response scenario_raw.data = some scenario_report := rfl

/-- C3: normalization (clean_json_response then JSON parsing) of a
backtick-free ScoreReport-shaped payload wrapped in markdown code fences
(`json`-tagged or plain) recovers exactly the structured data of the
unfenced payload; normalization is idempotent on already-clean responses;
and the spec's concrete fenced scenario normalizes to the report with one
review of score 1 and hard truth "Too vague.". -/
theorem normalize_fence_roundtrip :
    (∀ s : List Char, tick ∉ s →
        normalize_response (wrapFenceJson s) = normalize_response s
          ∧ normalize_response (wrapFencePlain s) = normalize_response s)
    ∧ (∀ s : List Char, tick ∉ s →
        normalize_response (clean_json_response s) = normalize_response s)
    ∧ normalize_response scenario_raw.data = some scenario_report := by
  refine ⟨fun s hs => ⟨?_, ?_⟩, fun s hs => ?_, rfl⟩
  · unfold normalize_response
    rw [clean_wrap_json s hs, clean_of_no_tick s hs]
  · unfold normalize_response
    rw [clean_wrap_plain s hs, clean_of_no_tick s hs]
  · unfold normalize_response
    rw [clean_of_no_tick s hs, clean_of_no_tick (pyStrip s) (no_tick_pyStrip s hs), pyStrip_idem]

/-- Witness for C3: the round-trip theorem applied to the scenario's
concrete payload. -/
theorem normalize_fence_roundtrip_witness :
    tick ∉ scenario_json.data
      ∧ normalize_response (wrapFenceJson scenario_json.data)
          = normalize_response scenario_json.data :=
  ⟨by decide, (normalize_fence_roundtrip.1 scenario_json.data (by decide)).1⟩

/-! ### Rubric constants and the prompt builder (src/app.py, analyze_pitch) -/

def RUBRIC_GUIDE : String :=
  "\nCASE STUDY ANCHORS (Use these to grade):\n\n1. PROBLEM IDENTIFICATION (\"Why you?\")\n   ⭐ 1 STAR (BAD): \"We are passionate students who love music.\" \n   (Reasoning: Generic passion, no unique leverage.)\n   ⭐ 3 STAR (GOOD): \"Our CTO holds a patent in audio signal processing and I managed a $2M inventory at Guitar Center.\"\n   (Reasoning: Specific, verifiable, relevant domain expertise.)\n\n2. CUSTOMER DISCOVERY (\"Who is the customer?\")\n   ⭐ 1 STAR (BAD): \"Everyone who owns a home is our customer.\"\n   (Reasoning: TAM is not a customer profile. Too broad.)\n   ⭐ 3 STAR (GOOD): \"Our beachhead is single-family homeowners in the Northeast with oil heat (12% of region).\"\n   (Reasoning: Specific geography, demographic, and technical constraint.)\n\n3. VALIDATION (\"How do you know?\")\n   ⭐ 1 STAR (BAD): \"We sent out a survey and people liked it.\"\n   (Reasoning: Surveys are weak evidence of purchase intent.)\n   ⭐ 3 STAR (GOOD): \"We pre-sold 50 units at $20 each using a smoke-test landing page.\"\n   (Reasoning: Financial commitment and actual behavior tracked.)\n"

def RUBRIC_QUESTIONS : String :=
  "\nSECTION 1: PROBLEM\n1. What is the problem you want to solve?\n2. Why do you care about solving this problem?\n3. Why are you uniquely qualified to solve this problem?\n4. Initial thoughts on finding customers?\n5. Initial thoughts on monetization?\n\nSECTION 2: DISCOVERY\n6. Who is the customer/end user?\n7. Have you carved out user profile specifics? (Who have you talked to?)\n8. How are customers currently solving this problem?\n9. What are the competitive products?\n10. Prototype status?\n11. Analysis of results?\n12. What do you need now?\n"

/-- Text of the prompt f-string before the embedded deck excerpt. -/
def prompt_head : String :=
  "\n    You are a strict Judge for the \x27Eureka\x27 Pitch Competition.\n    \n    TASK: Score the uploaded pitch deck based on the RUBRIC below.\n    Use the \"CASE STUDY ANCHORS\" to determine if a score is 1 or 3.\n\n    INPUT PITCH DECK:\n    \""

/-- Text of the prompt f-string after the embedded deck excerpt: the rubric
questions, the anchors and the JSON output-format instruction. -/
def prompt_tail : String :=
  "\"\n\n    RUBRIC QUESTIONS:\n    " ++ RUBRIC_QUESTIONS
    ++ "\n\n    CASE STUDY ANCHORS (STRICT RULES):\n    " ++ RUBRIC_GUIDE
    ++ "\n\n    OUTPUT FORMAT:\n    Respond with VALID JSON ONLY:\n    \x7b\n        \"reviews\": [\n            \x7b\n                \"question\": \"1. What is the problem?\",\n                \"score\": 1,\n                \"reasoning\": \"The deck only states...\"\n            \x7d,\n            ...\n        ],\n        \"total_score\": 0,\n        \"hard_truth\": \"Summary paragraph.\"\n    \x7d\n    "

/-- The prompt built by `analyze_pitch`: the fixed head, then
`deck_text[:30000]` (Python slicing: at most the first 30000 characters),
then the fixed tail. -/
def analyze_prompt (deck_text : List Char) : List Char :=
  prompt_head.data ++ deck_text.take 30000 ++ prompt_tail.data

/-! ### The model-fallback loop (src/app.py, analyze_pitch)

The remote API is an endpoint mapping an attempted model identifier to
`Except errorDetail responseText`; a raised exception is an `error`
result, caught by the loop's bare `except`. -/

/-- The candidate list of `analyze_pitch`, in source order. -/
def model_options : List String :=
  ["gemini-2.5-flash", "gemini-2.0-flash", "gemini-1.5-pro", "gemini-1.5-flash"]

/-- The fallback loop body: for each candidate try the bare identifier,
then the `models/`-prefixed form, then move on; `return None` after the
loop. -/
def invoke_models (ep : String → Except String String) : List String → Option String
  | [] => none
  | m :: ms =>
    match ep m with
    | .ok t => some t
    | .error _ =>
      match ep ("models/" ++ m) with
      | .ok t => some t
      | .error _ => invoke_models ep ms

/-- The fallback loop instrumented with the list of attempted identifiers,
in attempt order. -/
def invoke_models_trace (ep : String → Except String String) :
    List String → Option String × List String
  | [] => (none, [])
  | m :: ms =>
    match ep m with
    | .ok t => (some t, [m])
    | .error _ =>
      match ep ("models/" ++ m) with
      | .ok t => (some t, [m, "models/" ++ m])
      | .error _ =>
        match invoke_models_trace ep ms with
        | (r, tr) => (r, m :: ("models/" ++ m) :: tr)

/-- `analyze_pitch`: build the prompt from the deck text and run the
fallback loop against the endpoint (the prompt is identical across
attempts). -/
def analyze_pitch (ep : String → List Char → Except String String)
    (deck_text : List Char) : Option String :=
  invoke_models (fun m => ep m (analyze_prompt deck_text)) model_options

/-- Did attempting this identifier succeed? -/
def attempt_ok : Except String String → Bool
  | .ok _ => true
  | .error _ => false

/-- Does a candidate succeed under either naming form? -/
def candidate_ok (ep : String → Except String String) (m : String) : Bool :=
  attempt_ok (ep m) || attempt_ok (ep ("models/" ++ m))

/-- The response a candidate yields: the bare form's text if it succeeds,
otherwise the prefixed form's. -/
def candidate_text (ep : String → Except String String) (m : String) : Option String :=
  match ep m with
  | .ok t => some t
  | .error _ =>
    match ep ("models/" ++ m) with
    | .ok t => some t
    | .error _ => none

/-- The identifiers attempted for a candidate that is reached. -/
def candidate_trace (ep : String → Except String String) (m : String) : List String :=
  if attempt_ok (ep m) then [m] else [m, "models/" ++ m]

/-- Both naming forms of each candidate, in loop order. -/
def fallback_pairs : List String → List String
  | [] => []
  | m :: ms => m :: ("models/" ++ m) :: fallback_pairs ms

theorem invoke_models_trace_fst (ep : String → Except String String) (ms : List String) :
    (invoke_models_trace ep ms).1 = invoke_models ep ms := by
  induction ms with
  | nil => rfl
  | cons m ms ih =>
    rw [invoke_models, invoke_models_trace]
    cases ep m with
    | ok t => rfl
    | error e =>
      cases ep ("models/" ++ m) with
      | ok t => rfl
      | error e2 =>
        simp only
        rw [← ih]

/-- C1: whenever every candidate before `m` fails both naming forms and `m`
succeeds under one of them, the fallback loop returns `m`'s response text
(the bare form's if it succeeded, else the prefixed form's), and the
attempted identifiers are exactly both forms of each earlier candidate
followed by `m`'s attempts — no candidate after `m` is attempted. -/
theorem fallback_first_success (ep : String → Except String String)
    (pre : List String) (m : String) (post : List String)
    (hpre : ∀ x ∈ pre, candidate_ok ep x = false)
    (hm : candidate_ok ep m = true) :
    invoke_models ep (pre ++ m :: post) = candidate_text ep m
      ∧ invoke_models_trace ep (pre ++ m :: post)
          = (candidate_text ep m, fallback_pairs pre ++ candidate_trace ep m) := by
  have key : invoke_models_trace ep (pre ++ m :: post)
      = (candidate_text ep m, fallback_pairs pre ++ candidate_trace ep m) := by
    induction pre with
    | nil =>
      simp only [List.nil_append, fallback_pairs, List.append_nil]
      rw [invoke_models_trace]
      cases hep : ep m with
      | ok t => simp [candidate_text, candidate_trace, hep, attempt_ok]
      | error e =>
        cases hep2 : ep ("models/" ++ m) with
        | ok t => simp [candidate_text, candidate_trace, hep, hep2, attempt_ok]
        | error e2 =>
          unfold candidate_ok attempt_ok at hm
          rw [hep, hep2] at hm
          simp at hm
    | cons x pre ih =>
      have hx : candidate_ok ep x = false := hpre x (List.mem_cons_self x pre)
      have hpre' : ∀ y ∈ pre, candidate_ok ep y = false :=
        fun y hy => hpre y (List.mem_cons_of_mem x hy)
      unfold candidate_ok at hx
      rw [Bool.or_eq_false_iff] at hx
      rw [List.cons_append, invoke_models_trace]
      cases hep : ep x with
      | ok t =>
        rw [hep] at hx
        simp [attempt_ok] at hx
      | error e =>
        cases hep2 : ep ("models/" ++ x) with
        | ok t =>
          rw [hep2] at hx
          simp [attempt_ok] at hx
        | error e2 =>
          rw [ih hpre']
          simp [fallback_pairs]
  exact ⟨by rw [← invoke_models_trace_fst, key], key⟩

/-- Endpoint for the C1 witness: only the prefixed form of the second
candidate responds. -/
def ep_second_prefixed : String → Except String String := fun s =>
  if s = "models/gemini-2.0-flash" then .ok "REPLY" else .error "model unavailable"

/-- Witness for C1: with the source's candidate list, the first candidate
fails both forms, the second succeeds under the prefixed form, the loop
returns its text, and the last two candidates are never attempted. -/
theorem fallback_first_success_witness :
    (∀ x ∈ ["gemini-2.5-flash"], candidate_ok ep_second_prefixed x = false)
      ∧ candidate_ok ep_second_prefixed "gemini-2.0-flash" = true
      ∧ invoke_models ep_second_prefixed model_options = some "REPLY"
      ∧ invoke_models_trace ep_second_prefixed model_options
          = (some "REPLY",
             ["gemini-2.5-flash", "models/gemini-2.5-flash",
              "gemini-2.0-flash", "models/gemini-2.0-flash"]) := by
  have h := fallback_first_success ep_second_prefixed ["gemini-2.5-flash"]
    "gemini-2.0-flash" ["gemini-1.5-pro", "gemini-1.5-flash"] (by decide) (by decide)
  exact ⟨by decide, by decide, h.1.trans (by decide), h.2.trans (by decide)⟩

/-- C7: each reached candidate is attempted exactly once as the bare
identifier and — only if that fails — once more as `models/<identifier>`,
in that order; the loop moves to the next candidate only after both forms
fail; and globally the attempt list is an initial segment of the
bare/prefixed pairs in candidate order (so no identifier is ever retried). -/
theorem fallback_two_forms_per_candidate :
    (∀ (ep : String → Except String String) (m : String) (ms : List String),
        (invoke_models_trace ep (m :: ms)).2
          = if attempt_ok (ep m) then [m]
            else if attempt_ok (ep ("models/" ++ m)) then [m, "models/" ++ m]
            else m :: ("models/" ++ m) :: (invoke_models_trace ep ms).2)
    ∧ (∀ (ep : String → Except String String) (ms : List String),
        ∃ rest, (invoke_models_trace ep ms).2 ++ rest = fallback_pairs ms) := by
  constructor
  · intro ep m ms
    rw [invoke_models_trace]
    cases hep : ep m with
    | ok t => simp [attempt_ok]
    | error e =>
      cases hep2 : ep ("models/" ++ m) with
      | ok t => simp [attempt_ok]
      | error e2 => simp [attempt_ok]
  · intro ep ms
    induction ms with
    | nil => exact ⟨[], rfl⟩
    | cons m ms ih =>
      rw [invoke_models_trace, fallback_pairs]
      cases ep m with
      | ok t => exact ⟨_, rfl⟩
      | error e =>
        cases ep ("models/" ++ m) with
        | ok t => exact ⟨_, rfl⟩
        | error e2 =>
          obtain ⟨rest, hrest⟩ := ih
          refine ⟨rest, ?_⟩
          simp only []
          rw [← hrest]
          simp

/-- C2 (amended): when every candidate fails under both naming forms the
loop falls through to `return None`: the result is `none` — a failure
indicator carrying no error detail — and in particular never a successful
empty-string response. -/
theorem fallback_all_fail_returns_none (ep : String → Except String String)
    (ms : List String) (h : ∀ m ∈ ms, candidate_ok ep m = false) :
    invoke_models ep ms = none ∧ invoke_models ep ms ≠ some "" := by
  have hnone : invoke_models ep ms = none := by
    induction ms with
    | nil => rfl
    | cons m ms ih =>
      have hm := h m (List.mem_cons_self m ms)
      unfold candidate_ok at hm
      rw [Bool.or_eq_false_iff] at hm
      rw [invoke_models]
      cases hep : ep m with
      | ok t =>
        rw [hep] at hm
        simp [attempt_ok] at hm
      | error e =>
        cases hep2 : ep ("models/" ++ m) with
        | ok t =>
          rw [hep2] at hm
          simp [attempt_ok] at hm
        | error e2 => exact ih fun y hy => h y (List.mem_cons_of_mem m hy)
  refine ⟨hnone, ?_⟩
  rw [hnone]
  exact fun hc => Option.noConfusion hc

/-- Endpoint on which every attempt raises a quota error. -/
def ep_all_quota : String → Except String String := fun _ => .error "429 quota exceeded"

/-- Endpoint on which every attempt raises an authentication error. -/
def ep_all_auth : String → Except String String := fun _ => .error "401 invalid api key"

/-- Counterexample flattening C2 as stated: two all-failing runs whose last
encountered error details differ produce the identical result `none`, so
the returned failure cannot carry the last error detail — the loop's bare
`except` clauses discard it. -/
theorem fallback_error_detail_dropped :
    invoke_models ep_all_quota model_options = invoke_models ep_all_auth model_options
      ∧ invoke_models ep_all_quota model_options = none
      ∧ ("429 quota exceeded" : String) ≠ "401 invalid api key" :=
  ⟨rfl, rfl, by decide⟩

/-- Witness for C2 (amended): the all-failing quota endpoint on the
source's candidate list. -/
theorem fallback_all_fail_returns_none_witness :
    (∀ m ∈ model_options, candidate_ok ep_all_quota m = false)
      ∧ invoke_models ep_all_quota model_options = none
      ∧ invoke_models ep_all_quota model_options ≠ some "" := by
  have h : ∀ m ∈ model_options, candidate_ok ep_all_quota m = false := by decide
  exact ⟨h, fallback_all_fail_returns_none ep_all_quota model_options h⟩

/-- C6: the prompt embeds `deck_text[:30000]` — the whole deck text when it
is at most 30000 characters, and otherwise exactly its 30000-character
prefix, a hard cut at the character boundary. -/
theorem prompt_truncation_hard_cut :
    ∀ deck_text : List Char,
      analyze_prompt deck_text
          = prompt_head.data
              ++ (if deck_text.length ≤ 30000 then deck_text else deck_text.take 30000)
              ++ prompt_tail.data
        ∧ (deck_text.take 30000).length = min deck_text.length 30000
        ∧ deck_text.take 30000 ++ deck_text.drop 30000 = deck_text := by
  intro deck
  refine ⟨?_, ?_, List.take_append_drop _ _⟩
  · unfold analyze_prompt
    by_cases h : deck.length ≤ 30000
    · rw [if_pos h, List.take_of_length_le h]
    · rw [if_neg h]
  · rw [List.length_take, Nat.min_comm]

/-! ### Startup authentication (src/app.py lines 13-18) -/

/-- Diagnostic shown when the API key secret is missing. -/
def api_key_missing_msg : String :=
  "🔑 API Key missing. Please add GEMINI_API_KEY to Streamlit Secrets."

/-- What the startup sequence ends in: `st.stop()` after the error banner,
or a configured client. -/
inductive StartupOutcome where
  | halted (diagnostic : String) : StartupOutcome
  | configured (api_key : String) : StartupOutcome

/-- Startup of src/app.py: read the `GEMINI_API_KEY` secret; `if not
api_key:` (absent secret or falsy empty string) show the diagnostic and
stop before `genai.configure`; otherwise configure with the key. -/
def startup (gemini_api_key : Option String) : StartupOutcome :=
  match gemini_api_key with
  | none => .halted api_key_missing_msg
  | some k => if k = "" then .halted api_key_missing_msg else .configured k

/-- C8: an absent API key halts startup with the user-visible diagnostic,
and no configured state (and hence no later pipeline stage) is ever
reached. -/
theorem startup_missing_key_halts :
    ∀ secret : Option String, secret = none →
      startup secret = .halted api_key_missing_msg
        ∧ ∀ k, startup secret ≠ .configured k := by
  intro secret h
  subst h
  exact ⟨rfl, fun k hc => StartupOutcome.noConfusion hc⟩

/-- Witness for C8: the startup theorem at the absent secret. -/
theorem startup_missing_key_halts_witness :
    startup none = .halted api_key_missing_msg
      ∧ ∀ k, startup none ≠ .configured k :=
  startup_missing_key_halts none rfl

/-! ### The Run Evaluation handler (src/app.py lines 186-198) -/

/-- Whether the handler reaches `analyze_pitch` for the extracted text. -/
inductive RunOutcome where
  | noAnalysis : RunOutcome
  | invoked (deck_text : List Char) : RunOutcome

/-- The handler's gate after text extraction: `if extracted_text:` —
Python truthiness.  `None` (extraction raised) and the empty string are
skipped silently (no message of any kind); any other text is passed to
`analyze_pitch` unchanged. -/
def run_evaluation_gate (extracted_text : Option (List Char)) : RunOutcome :=
  match extracted_text with
  | none => .noAnalysis
  | some t => if t = [] then .noAnalysis else .invoked t

/-- Counterexample to C4 as stated: a 49-character extracted text is not
rejected — the handler passes it straight to the Model Invoker; no
50-character minimum-length gate (and no EmptyContentError) exists in the
code. -/
theorem length_gate_counterexample :
    (List.replicate 49 'a').length = 49
      ∧ run_evaluation_gate (some (List.replicate 49 'a'))
          = .invoked (List.replicate 49 'a') := by
  exact ⟨by decide, rfl⟩

/-- C4 (amended): the only gate is Python truthiness — extraction failure
and empty text are skipped silently, and every non-empty extracted text,
of any length (in particular 49 or 50 characters), proceeds to prompt
building and model invocation. -/
theorem length_gate_amended :
    (∀ t : List Char, t ≠ [] → run_evaluation_gate (some t) = .invoked t)
      ∧ run_evaluation_gate (some []) = .noAnalysis
      ∧ run_evaluation_gate none = .noAnalysis := by
  refine ⟨fun t ht => ?_, rfl, rfl⟩
  rw [run_evaluation_gate, if_neg ht]

/-- Witness for C4 (amended): a 50-character text proceeds. -/
theorem length_gate_amended_witness :
    run_evaluation_gate (some (List.replicate 50 'b'))
        = .invoked (List.replicate 50 'b')
      ∧ (List.replicate 50 'b').length = 50 :=
  ⟨length_gate_amended.1 _ (by decide), by decide⟩

/-- What the result-handling tail of the handler leaves behind. -/
inductive HandlerOutcome where
  | skipped : HandlerOutcome
  | updated (analysis_data : Json) : HandlerOutcome
  | errorShown (message : String) : HandlerOutcome

/-- The fixed message of the handler's `except` branch. -/
def parse_error_msg : String := "Error parsing AI response. Please try again."

/-- The handler tail: `if raw_result:` then
`json.loads(clean_json_response(raw_result))` into session state; on a
parse failure `st.error` shows only the fixed message — the raw text
appears nowhere in the outcome. -/
def handle_raw_result (raw_result : Option (List Char)) : HandlerOutcome :=
  match raw_result with
  | none => .skipped
  | some raw =>
    if raw = [] then .skipped
    else
      match normalize_response raw with
      | some v => .updated v
      | none => .errorShown parse_error_msg

/-- Counterexample to C5 as stated: two different unparseable raw responses
produce the identical outcome — the fixed generic message — so the raw
text is not passed through to the caller; it is dropped. -/
theorem parse_failure_counterexample :
    handle_raw_result (some "the model replied with prose A".data)
        = .errorShown parse_error_msg
      ∧ handle_raw_result (some "completely different prose B".data)
          = .errorShown parse_error_msg
      ∧ ("the model replied with prose A" : String) ≠ "completely different prose B" :=
  ⟨rfl, rfl, by decide⟩

/-- C5 (amended): on a JSON parse failure of the cleaned response the
handler shows only the fixed "Error parsing AI response. Please try
again." message; the raw response text is discarded rather than passed
through. -/
theorem parse_failure_amended (raw : List Char) (hne : raw ≠ [])
    (hfail : normalize_response raw = none) :
    handle_raw_result (some raw) = .errorShown parse_error_msg := by
  rw [handle_raw_result, if_neg hne, hfail]

/-- Witness for C5 (amended): a concrete non-JSON response. -/
theorem parse_failure_amended_witness :
    normalize_response "not json".data = none
      ∧ handle_raw_result (some "not json".data) = .errorShown parse_error_msg :=
  ⟨rfl, parse_failure_amended ("not json".data) (by decide) rfl⟩

/-! ### Text extraction (src/app.py, extract_text) -/

/-- `"\n".join(...)` over the per-page texts. -/
def join_newline : List (List Char) → List Char
  | [] => []
  | [x] => x
  | x :: xs => x ++ '\n' :: join_newline xs

/-- The pptx accumulation `text += shape.text + "\n"`. -/
def pptx_concat : List (List Char) → List Char
  | [] => []
  | t :: ts => t ++ '\n' :: pptx_concat ts

/-- `extract_text` from src/app.py, with the two parsing libraries as
collaborator parameters: a library call either returns its result or
raises (`error`), and the surrounding `try/except Exception` maps any
raise to `None`.  The pdf library yields per-page optional text
(`p.extract_text() or ""` maps a page's None to the empty string, pages
joined with newlines); the pptx library yields the text of each shape
having a `text` attribute, each followed by a newline.  A file type that
is neither "pdf" nor "pptx" leaves the initial empty text. -/
def extract_text {F : Type} (pdfLib : F → Except String (List (Option (List Char))))
    (pptxLib : F → Except String (List (List Char)))
    (file : F) (file_type : String) : Option (List Char) :=
  if file_type = "pdf" then
    match pdfLib file with
    | .ok pages => some (join_newline (pages.map (fun p => p.getD [])))
    | .error _ => none
  else if file_type = "pptx" then
    match pptxLib file with
    | .ok shape_texts => some (pptx_concat shape_texts)
    | .error _ => none
  else some []

/-- C9: `extract_text` is total over its error branch — a raising library
call yields `None` (never a propagated exception), an unrecognized file
type yields the empty string, and the result is always either `None` or a
string. -/
theorem extract_text_total :
    (∀ (F : Type) (pdfLib : F → Except String (List (Option (List Char))))
        (pptxLib : F → Except String (List (List Char))) (file : F) (e : String),
        pdfLib file = .error e → extract_text pdfLib pptxLib file "pdf" = none)
      ∧ (∀ (F : Type) (pdfLib : F → Except String (List (Option (List Char))))
          (pptxLib : F → Except String (List (List Char))) (file : F) (e : String),
          pptxLib file = .error e → extract_text pdfLib pptxLib file "pptx" = none)
      ∧ (∀ (F : Type) (pdfLib : F → Except String (List (Option (List Char))))
          (pptxLib : F → Except String (List (List Char))) (file : F) (file_type : String),
          file_type ≠ "pdf" → file_type ≠ "pptx" →
            extract_text pdfLib pptxLib file file_type = some [])
      ∧ (∀ (F : Type) (pdfLib : F → Except String (List (Option (List Char))))
          (pptxLib : F → Except String (List (List Char))) (file : F) (file_type : String),
          extract_text pdfLib pptxLib file file_type = none
            ∨ ∃ s, extract_text pdfLib pptxLib file file_type = some s) := by
  refine ⟨?_, ?_, ?_, ?_⟩
  · intro F pdfLib pptxLib file e h
    unfold extract_text
    rw [if_pos rfl, h]
  · intro F pdfLib pptxLib file e h
    unfold extract_text
    rw [if_neg (by decide), if_pos rfl, h]
  · intro F pdfLib pptxLib file file_type h1 h2
    unfold extract_text
    rw [if_neg h1, if_neg h2]
  · intro F pdfLib pptxLib file file_type
    cases hE : extract_text pdfLib pptxLib file file_type with
    | none => exact Or.inl rfl
    | some s => exact Or.inr ⟨s, rfl⟩

/-- A pdf library call that raises. -/
def pdf_raises : Unit → Except String (List (Option (List Char))) :=
  fun _ => .error "PDFSyntaxError"

/-- A pptx library call that returns no shapes. -/
def pptx_no_shapes : Unit → Except String (List (List Char)) :=
  fun _ => .ok []

/-- Witness for C9: a raising pdf library maps to `None`; an unrecognized
extension maps to the empty string. -/
theorem extract_text_total_witness :
    extract_text pdf_raises pptx_no_shapes () "pdf" = none
      ∧ extract_text pdf_raises pptx_no_shapes () "docx" = some [] :=
  ⟨extract_text_total.1 Unit pdf_raises pptx_no_shapes () "PDFSyntaxError" rfl,
   extract_text_total.2.2.1 Unit pdf_raises pptx_no_shapes () "docx" (by decide) (by decide)⟩

/-! ### C10: fences are removed everywhere, not only at the edges -/

/-- A ScoreReport-like payload whose string value legitimately contains a
backtick fence. -/
def interior_fence_raw : String := "\x7b\"hard_truth\":\"use ``` here\"\x7d"

/-- The same payload after `clean_json_response`: the interior fence is
gone (note the doubled space). -/
def interior_fence_cleaned : String := "\x7b\"hard_truth\":\"use  here\"\x7d"

/-- C10: `clean_json_response` deletes every occurrence of fence markers
anywhere in the input — on any input without three consecutive backticks
it is the identity up to `strip`, while a fence inside a JSON string value
is deleted too, changing the payload that reaches the parser. -/
theorem clean_json_removes_all_fences :
    (∀ s : List Char, hasTriple s = false → clean_json_response s = pyStrip s)
      ∧ clean_json_response interior_fence_raw.data = interior_fence_cleaned.data
      ∧ clean_json_response interior_fence_raw.data ≠ pyStrip interior_fence_raw.data
      ∧ normalize_response interior_fence_raw.data
          = some (.obj [("hard_truth".data, .str "use  here".data)])
      ∧ json_loads interior_fence_raw.data
          = some (.obj [("hard_truth".data, .str "use ``` here".data)]) := by
  refine ⟨fun s h => clean_of_noTriple s h, rfl, ?_, rfl, rfl⟩
  intro heq
  have h1 : clean_json_response interior_fence_raw.data = interior_fence_cleaned.data := rfl
  have h2 : pyStrip interior_fence_raw.data = interior_fence_raw.data := rfl
  rw [h1, h2] at heq
  have : interior_fence_cleaned.data ≠ interior_fence_raw.data := by decide
  exact this heq

/-- Witness for C10: a fence-free response is returned stripped only. -/
theorem clean_json_removes_all_fences_witness :
    hasTriple "  [1, 2] ".data = false
      ∧ clean_json_response "  [1, 2] ".data = pyStrip "  [1, 2] ".data :=
  ⟨by decide, clean_json_removes_all_fences.1 ("  [1, 2] ".data) (by decide)⟩
